import Mathlib

/-!
Verification development for the Cologne open-data press-release service
(`koeln_presse`): a shallow embedding of `utils.py`, `models.py` and
`rss_client.py`, together with theorems about the fetch-parse-cache pipeline
and the in-memory query engine.

External collaborators (the `lxml` XML parser, `httpx` transport, the
`pydantic` URL validator and the `dateutil` date parser) are modelled at the
abstraction level at which the repository uses them; each such model carries a
doc comment saying so.  Wall-clock time is passed explicitly as an integer
parameter, and the network is a function from attempt index to outcome.
-/

namespace KoelnPresse

/-! ### String primitives (Python `in`, `lower`, `strip`, `lstrip`) -/

/-- Does the character list `hay` begin with `needle`?  Models Python string
prefix comparison at the code-point level. -/
def charsStartWith : List Char → List Char → Bool
  | _, [] => true
  | [], _ :: _ => false
  | h :: hs, n :: ns => (h == n) && charsStartWith hs ns

/-- Does `hay` contain `needle` as a contiguous run?  Models Python's
substring operator over code points. -/
def charsContain : List Char → List Char → Bool
  | [], n => n.isEmpty
  | h :: t, n => charsStartWith (h :: t) n || charsContain t n

/-- Python `needle in hay` on strings: contiguous substring containment. -/
def strContains (hay needle : String) : Bool :=
  charsContain hay.data needle.data

/-- Python `s.lower()` at the ASCII level (the feed's case folding). -/
def pyLower (s : String) : String :=
  String.mk (s.data.map Char.toLower)

/-- Python `s.strip()`: drop leading and trailing whitespace. -/
def pyStrip (s : String) : String :=
  String.mk (((s.data.dropWhile Char.isWhitespace).reverse.dropWhile
    Char.isWhitespace).reverse)

/-- Python `s.startswith(pre)`. -/
def strStartsWith (s pre : String) : Bool :=
  charsStartWith s.data pre.data

/-- Python `s.lstrip("/")`: drop every leading slash. -/
def lstripSlash (s : String) : String :=
  String.mk (s.data.dropWhile (· == '/'))

/-! ### SHA-1 (`hashlib.sha1(...).hexdigest()` in `utils.generate_stable_id`) -/

/-- UTF-8 encoding of one character, as a list of byte values. -/
def utf8CharBytes (c : Char) : List Nat :=
  let n := c.toNat
  if n < 128 then [n]
  else if n < 2048 then [192 + n / 64, 128 + n % 64]
  else if n < 65536 then [224 + n / 4096, 128 + (n / 64) % 64, 128 + n % 64]
  else [240 + n / 262144, 128 + (n / 4096) % 64, 128 + (n / 64) % 64, 128 + n % 64]

/-- UTF-8 encoding of a string (Python `s.encode("utf-8")`). -/
def utf8Bytes (s : String) : List Nat :=
  s.data.foldr (fun c acc => utf8CharBytes c ++ acc) []

/-- Rotate a 32-bit word left by `k` bits. -/
def rotl (k x : Nat) : Nat :=
  (((x % 4294967296) <<< k) % 4294967296) ||| ((x % 4294967296) >>> (32 - k))

/-- Big-endian byte expansion of `n` into `k` bytes. -/
def beBytes : Nat → Nat → List Nat
  | 0, _ => []
  | k + 1, n => beBytes k (n / 256) ++ [n % 256]

/-- SHA-1 message padding: a 0x80 byte, zeros to 56 mod 64, then the
bit length as 8 big-endian bytes. -/
def sha1Pad (msg : List Nat) : List Nat :=
  let k := (120 - (msg.length + 1) % 64) % 64
  msg ++ [128] ++ List.replicate k 0 ++ beBytes 8 (8 * msg.length)

/-- Combine bytes into big-endian 32-bit words. -/
def bytesToWords : List Nat → List Nat
  | b0 :: b1 :: b2 :: b3 :: rest =>
      (((b0 * 256 + b1) * 256 + b2) * 256 + b3) :: bytesToWords rest
  | _ => []

/-- Extend the 16 chunk words to the 80 words of the SHA-1 message schedule. -/
def sha1Extend (w : Array Nat) : Array Nat :=
  (List.range 64).foldl
    (fun w j =>
      let i := j + 16
      w.push (rotl 1 ((((w.getD (i - 3) 0) ^^^ (w.getD (i - 8) 0)) ^^^
        (w.getD (i - 14) 0)) ^^^ (w.getD (i - 16) 0))))
    w

/-- One SHA-1 chunk compression over a 64-byte block. -/
def sha1Compress (h0 h1 h2 h3 h4 : Nat) (chunk : List Nat) :
    Nat × Nat × Nat × Nat × Nat :=
  let w := sha1Extend (Array.mk (bytesToWords chunk))
  let step := fun (st : Nat × Nat × Nat × Nat × Nat) (i : Nat) =>
    let (a, b, c, d, e) := st
    let f :=
      if i < 20 then (b &&& c) ||| ((b ^^^ 4294967295) &&& d)
      else if i < 40 then (b ^^^ c) ^^^ d
      else if i < 60 then ((b &&& c) ||| (b &&& d)) ||| (c &&& d)
      else (b ^^^ c) ^^^ d
    let kc :=
      if i < 20 then 1518500249
      else if i < 40 then 1859775393
      else if i < 60 then 2400959708
      else 3395469782
    let temp := (rotl 5 a + f + e + kc + w.getD i 0) % 4294967296
    (temp, a, rotl 30 b, c, d)
  let r := (List.range 80).foldl step (h0, h1, h2, h3, h4)
  ((h0 + r.1) % 4294967296, (h1 + r.2.1) % 4294967296, (h2 + r.2.2.1) % 4294967296,
    (h3 + r.2.2.2.1) % 4294967296, (h4 + r.2.2.2.2) % 4294967296)

/-- Split a padded message into 64-byte chunks. -/
def chunksOf64 (l : List Nat) : List (List Nat) :=
  (List.range (l.length / 64)).map (fun i => (l.drop (64 * i)).take 64)

/-- SHA-1 digest of a byte list as the five 32-bit state words. -/
def sha1Digest (msg : List Nat) : Nat × Nat × Nat × Nat × Nat :=
  (chunksOf64 (sha1Pad msg)).foldl
    (fun h chunk => sha1Compress h.1 h.2.1 h.2.2.1 h.2.2.2.1 h.2.2.2.2 chunk)
    (1732584193, 4023233417, 2562383102, 271733878, 3285377520)

/-- Lowercase hexadecimal digit. -/
def hexDigit (n : Nat) : Char :=
  if n < 10 then Char.ofNat (48 + n) else Char.ofNat (87 + n)

/-- Eight-digit lowercase hex rendering of a 32-bit word. -/
def hexWord (n : Nat) : String :=
  String.mk ((List.range 8).map (fun i => hexDigit ((n >>> (4 * (7 - i))) % 16)))

/-- Python `hashlib.sha1(s.encode("utf-8")).hexdigest()`. -/
def sha1Hex (s : String) : String :=
  let h := sha1Digest (utf8Bytes s)
  hexWord h.1 ++ hexWord h.2.1 ++ hexWord h.2.2.1 ++ hexWord h.2.2.2.1 ++ hexWord h.2.2.2.2

/-! ### `utils.generate_stable_id` -/

/-- Embedding of `utils.generate_stable_id`: a truthy GUID whose stripped form
is non-empty is the id verbatim (stripped); otherwise the id is the SHA-1 hex
digest of `trimmed title ++ "|" ++ trimmed link`. -/
def generate_stable_id (title link : String) (guid : Option String) : String :=
  let fallback := sha1Hex (pyStrip title ++ "|" ++ pyStrip link)
  match guid with
  | some g =>
      if g = "" then fallback
      else if pyStrip g = "" then fallback
      else pyStrip g
  | none => fallback

/-! ### XML element trees (the view of `lxml.etree` used by the repository) -/

/-- Model of an XML element as produced by the external `lxml` parser, at the
level the repository uses it: a tag, optional text, and child elements. -/
inductive Element where
  | mk (tag : String) (text : Option String) (children : List Element)

/-- Tag of an element. -/
def Element.tag : Element → String
  | .mk t _ _ => t

/-- Text content of an element (`elem.text`, `None` when absent). -/
def Element.text : Element → Option String
  | .mk _ x _ => x

/-- Child elements. -/
def Element.children : Element → List Element
  | .mk _ _ c => c

/-- `elem.find(tag)`: first direct child with the given tag, if any. -/
def Element.find (e : Element) (t : String) : Option Element :=
  e.children.find? (fun c => c.tag == t)

/-- `elem.findall(tag)`: all direct children with the given tag, in order. -/
def Element.findall (e : Element) (t : String) : List Element :=
  e.children.filter (fun c => c.tag == t)

/-- Input to `parse_items`, as classified by the external `etree.fromstring`:
either the bytes are not well-formed XML (raising `XMLSyntaxError` with a
message) or they parse to a root element. -/
inductive RawXml where
  | malformed (msg : String)
  | wellFormed (root : Element)

/-- Error taxonomy of the pipeline: a fetch failure surfaced by `fetch_raw`
after its retries, and the three `ValueError`s raised by `parse_items`. -/
inductive RssError where
  | fetchFailed (msg : String)
  | invalidXml (msg : String)
  | missingChannel
  | emptyFeed
deriving DecidableEq, Repr

/-! ### `models.PressItem` and `models.from_rss_item` -/

/-- Equality on fallible results is decidable when it is on both components;
used to evaluate the embedding on concrete feeds. -/
instance {ε α : Type} [DecidableEq ε] [DecidableEq α] : DecidableEq (Except ε α) :=
  fun x y =>
    match x, y with
    | .ok a, .ok b =>
        if h : a = b then .isTrue (h ▸ rfl)
        else .isFalse (fun hh => h (Except.ok.inj hh))
    | .error a, .error b =>
        if h : a = b then .isTrue (h ▸ rfl)
        else .isFalse (fun hh => h (Except.error.inj hh))
    | .ok _, .error _ => .isFalse (fun hh => Except.noConfusion hh)
    | .error _, .ok _ => .isFalse (fun hh => Except.noConfusion hh)

/-- Embedding of `models.PressItem`.  Publication timestamps are abstracted to
integers; the link is stored as the resolved URL string. -/
structure PressItem where
  id : String
  title : String
  link : String
  description : Option String
  published_at : Int
  categories : List String
  raw_guid : Option String
  source : String
deriving DecidableEq, Repr

/-- Helper for the URL model: the characters contain `://` followed by a
non-empty remainder. -/
def hasSchemeSep : List Char → Bool
  | ':' :: '/' :: '/' :: rest => !rest.isEmpty
  | _ :: t => hasSchemeSep t
  | [] => false

/-- Modelled from the spec: the external `pydantic` `AnyUrl` validator on
`PressItem.link` (`models.py` line 14, library code outside this repository).
A link is accepted when a non-empty scheme is followed by the `://` separator
and a non-empty remainder. -/
def isValidUrl (s : String) : Bool :=
  match s.data with
  | ':' :: '/' :: '/' :: _ => false
  | l => hasSchemeSep l

/-- Modelled from the spec: the external `dateutil` parser used for `pubDate`
(`models.py` line 83, library code outside this repository).  Timestamps are
abstracted to integers, and a pubDate text parses exactly when it denotes an
unsigned decimal integer in this abstraction. -/
def parseDate (s : String) : Option Int :=
  match s.data with
  | [] => none
  | l =>
      if l.all Char.isDigit then
        some (Int.ofNat (l.foldl (fun n c => 10 * n + (c.toNat - 48)) 0))
      else none

/-- The fixed base URL against which relative links resolve. -/
def base_url : String := "https://www.stadt-koeln.de"

/-- Link resolution from `models.from_rss_item`: a leading slash joins the
base URL directly, anything not starting with `http` is joined with a slash,
an `http...` link passes through unchanged. -/
def resolveLink (link_text : String) : String :=
  if strStartsWith link_text "/" then base_url ++ link_text
  else if !(strStartsWith link_text "http") then base_url ++ "/" ++ lstripSlash link_text
  else link_text

/-- Title extraction: the stripped text when the element exists with truthy
text, else the fixed placeholder. -/
def titleOf (el : Element) : String :=
  match el.find "title" with
  | some t =>
      match t.text with
      | some s => if s = "" then "Unbekannter Titel" else pyStrip s
      | none => "Unbekannter Titel"
  | none => "Unbekannter Titel"

/-- Raw link text: the stripped text when present and truthy, else empty. -/
def rawLinkOf (el : Element) : String :=
  match el.find "link" with
  | some t =>
      match t.text with
      | some s => if s = "" then "" else pyStrip s
      | none => ""
  | none => ""

/-- The resolved link of an item element. -/
def linkOf (el : Element) : String :=
  resolveLink (rawLinkOf el)

/-- Plain `description` element text, when truthy. -/
def descPlainOf (el : Element) : Option String :=
  match el.find "description" with
  | some d =>
      match d.text with
      | some s => if s = "" then none else some s
      | none => none
  | none => none

/-- Description extraction: prefer truthy `content:encoded` text, else the
plain `description` text, else none.  Neither is stripped. -/
def descriptionOf (el : Element) : Option String :=
  match el.find "\x7bhttp://purl.org/rss/1.0/modules/content/\x7dencoded" with
  | some ce =>
      match ce.text with
      | some s => if s = "" then descPlainOf el else some s
      | none => descPlainOf el
  | none => descPlainOf el

/-- Publication timestamp: the parsed stripped `pubDate` text when the element
exists with truthy text that parses, otherwise the current wall-clock `now`. -/
def publishedAtOf (el : Element) (now : Int) : Int :=
  match el.find "pubDate" with
  | some p =>
      match p.text with
      | some s => if s = "" then now else (parseDate (pyStrip s)).getD now
      | none => now
  | none => now

/-- Does the element carry a pubDate that the date parser accepts? -/
def pubDateParsable (el : Element) : Bool :=
  match el.find "pubDate" with
  | some p =>
      match p.text with
      | some s => !(s == "") && (parseDate (pyStrip s)).isSome
      | none => false
  | none => false

/-- Category extraction: stripped texts of `category` children whose text is
truthy and non-blank, feed order preserved, duplicates allowed. -/
def categoriesOf (el : Element) : List String :=
  (el.findall "category").filterMap (fun c =>
    match c.text with
    | some s => if s ≠ "" ∧ pyStrip s ≠ "" then some (pyStrip s) else none
    | none => none)

/-- Raw GUID: the stripped `guid` text when the element exists with truthy
text, else none. -/
def guidOf (el : Element) : Option String :=
  match el.find "guid" with
  | some g =>
      match g.text with
      | some s => if s = "" then none else some (pyStrip s)
      | none => none
  | none => none

/-- Embedding of `models.from_rss_item`: extract the fields, derive the stable
id, and construct the item.  The only failure the constructor can raise is the
`pydantic` URL validation of the resolved link, surfaced as an error so that
`parse_items` can skip the entry. -/
def from_rss_item (el : Element) (now : Int) : Except String PressItem :=
  let title := titleOf el
  let link_text := linkOf el
  let item_id := generate_stable_id title link_text (guidOf el)
  if isValidUrl link_text then
    .ok ⟨item_id, title, link_text, descriptionOf el, publishedAtOf el now,
      categoriesOf el, guidOf el, "rss:stadt-koeln"⟩
  else
    .error ("invalid link URL: " ++ link_text)

/-! ### `RssClient.parse_items` -/

/-- Embedding of `RssClient.parse_items`: malformed bytes raise the invalid-XML
error, a channel-less document the missing-channel error; each `item` child of
the channel is parsed independently and failing entries are skipped; if no
item survives, the empty-feed error is raised. -/
def parse_items (xml_data : RawXml) (now : Int) : Except RssError (List PressItem) :=
  match xml_data with
  | .malformed e => .error (.invalidXml e)
  | .wellFormed root =>
      match root.find "channel" with
      | none => .error .missingChannel
      | some channel =>
          let items := (channel.findall "item").filterMap
            (fun el => (from_rss_item el now).toOption)
          if items.isEmpty then .error .emptyFeed else .ok items

/-! ### `utils.retry_on_failure` and `RssClient.fetch_raw` -/

/-- Outcome of a run of the retry loop: the final result (`none` only when the
loop body never runs, i.e. zero attempts were configured), the number of
attempts performed, and the backoff waits slept between attempts, in order. -/
structure RetryOutcome (E A : Type) where
  result : Option (Except E A)
  attemptsMade : Nat
  waits : List ℚ
deriving Repr

/-- Body of the `for attempt in range(max_attempts)` loop of
`utils.retry_on_failure`: `i` is the current attempt index and the second
argument the number of loop iterations still available (including this one).
A success returns at once; a failure with further iterations available sleeps
`delay * backoff ^ attempt` and retries; a failure on the last attempt
re-raises. -/
def retryGo (f : Nat → Except E A) (delay backoff : ℚ) :
    Nat → Nat → RetryOutcome E A
  | _, 0 => ⟨none, 0, []⟩
  | i, remaining + 1 =>
      match f i with
      | .ok a => ⟨some (.ok a), 1, []⟩
      | .error e =>
          if remaining = 0 then ⟨some (.error e), 1, []⟩
          else
            let rest := retryGo f delay backoff (i + 1) remaining
            ⟨rest.result, rest.attemptsMade + 1, delay * backoff ^ i :: rest.waits⟩

/-- Embedding of the `utils.retry_on_failure` decorator applied to an
operation `f`, where `f i` is the outcome of the `i`-th attempt (0-based) of
the wrapped call. -/
def retry_on_failure (maxAttempts : Nat) (delay backoff : ℚ)
    (f : Nat → Except E A) : RetryOutcome E A :=
  retryGo f delay backoff 0 maxAttempts

/-- Embedding of `RssClient` state: configuration plus the snapshot cache
(`_cached_items`, `_last_fetch`).  Wall-clock times are integers. -/
structure RssClient where
  cache_ttl : Int
  http_timeout : Int
  max_retries : Nat
  cached_items : Option (List PressItem)
  last_fetch : Option Int
deriving DecidableEq, Repr

/-- Python `x or default` on an optional integer argument: `None` and `0` both
fall back to the default. -/
def orDefault (x : Option Int) (d : Int) : Int :=
  match x with
  | some v => if v = 0 then d else v
  | none => d

/-- Embedding of `RssClient.__init__` with the environment unset, so the
defaults are the literals 300, 8 and 3. -/
def mkRssClient (cache_ttl http_timeout : Option Int) (max_retries : Option Nat) :
    RssClient where
  cache_ttl := orDefault cache_ttl 300
  http_timeout := orDefault http_timeout 8
  max_retries :=
    match max_retries with
    | some v => if v = 0 then 3 else v
    | none => 3
  cached_items := none
  last_fetch := none

/-- Embedding of `RssClient.fetch_raw` with its decorator.  The network is the
function `net` from attempt index to outcome (transport errors carry their
message).  The decorator is applied with the literal arguments
`max_attempts=3, delay=1.0, backoff_factor=2.0`; the client's `max_retries`
field plays no part. -/
def fetch_raw (_c : RssClient) (net : Nat → Except String RawXml) :
    RetryOutcome String RawXml :=
  retry_on_failure 3 1 2 net

/-! ### `RssClient.load_items_cached` and queries -/

/-- The cache-validity test of `load_items_cached`: items and a fetch time are
present and the age is below the TTL. -/
def cacheFresh (c : RssClient) (now : Int) : Bool :=
  match c.cached_items, c.last_fetch with
  | some _, some t => now - t < c.cache_ttl
  | _, _ => false

/-- The refresh branch of `load_items_cached`: fetch (through the retry
decorator), parse, install the new snapshot; on any failure serve the stale
snapshot when one exists, otherwise re-raise. -/
def refreshAttempt (c : RssClient) (now : Int) (net : Nat → Except String RawXml) :
    Except RssError (List PressItem) × RssClient × Bool :=
  let fetched : Except RssError RawXml :=
    match (fetch_raw c net).result with
    | some (.ok x) => .ok x
    | some (.error e) => .error (.fetchFailed e)
    | none => .error (.fetchFailed "no attempt made")
  match fetched.bind (fun x => parse_items x now) with
  | .ok items => (.ok items, { c with cached_items := some items, last_fetch := some now }, true)
  | .error e =>
      match c.cached_items with
      | some stale => (.ok stale, c, true)
      | none => (.error e, c, true)

/-- Embedding of `RssClient.load_items_cached`.  Returns the result, the
client state after the call, and whether a network fetch was attempted. -/
def load_items_cached (c : RssClient) (now : Int) (net : Nat → Except String RawXml) :
    Except RssError (List PressItem) × RssClient × Bool :=
  if cacheFresh c now then (.ok (c.cached_items.getD []), c, false)
  else refreshAttempt c now net

/-- Embedding of `RssClient._score_item` (the query is already lowercased):
+3 for a title match, +2 per matching category, +1 for a description match. -/
def score_item (item : PressItem) (query : String) : Nat :=
  let s1 := if strContains (pyLower item.title) query then 3 else 0
  let s2 := item.categories.foldl
    (fun acc cat => if strContains (pyLower cat) query then acc + 2 else acc) s1
  if strContains (pyLower (item.description.getD "")) query then s2 + 1 else s2

/-- Descending order on score-item pairs used by the search sort
(`key=lambda x: x[0], reverse=True`). -/
def scoreGE (a b : Nat × PressItem) : Prop := b.1 ≤ a.1

instance : DecidableRel scoreGE := fun a b => Nat.decLe b.1 a.1

instance : IsTotal (Nat × PressItem) scoreGE := ⟨fun a b => Nat.le_total b.1 a.1⟩

instance : IsTrans (Nat × PressItem) scoreGE := ⟨fun _ _ _ h₁ h₂ => Nat.le_trans h₂ h₁⟩

/-- The score-gathering loop of `search_items`: the `(score, item)` pairs of
the positively scored items, in snapshot order. -/
def scoredOf (items : List PressItem) (ql : String) : List (Nat × PressItem) :=
  items.filterMap (fun i =>
    let s := score_item i ql
    if 0 < s then some (s, i) else none)

/-- The pure body of `RssClient.search_items` over a loaded snapshot: lowercase
and strip the query; an empty query returns the first `limit` items; otherwise
keep positively scored items, stable-sort by descending score, truncate. -/
def searchSnapshot (items : List PressItem) (query : String) (limit : Nat) :
    List PressItem :=
  let query_lower := pyStrip (pyLower query)
  if query_lower = "" then items.take limit
  else
    ((List.insertionSort scoreGE (scoredOf items query_lower)).take limit).map Prod.snd

/-- Embedding of `RssClient.search_items`: load (possibly refreshing), then
search the snapshot. -/
def search_items (c : RssClient) (now : Int) (net : Nat → Except String RawXml)
    (query : String) (limit : Nat) :
    Except RssError (List PressItem) × RssClient × Bool :=
  let r := load_items_cached c now net
  (r.1.map (fun items => searchSnapshot items query limit), r.2.1, r.2.2)

/-- Embedding of `RssClient.get_categories`: the sorted deduplicated union of
the cached items' categories; empty when nothing is cached. -/
def get_categories (c : RssClient) : List String :=
  match c.cached_items with
  | none => []
  | some items =>
      List.insertionSort (· ≤ ·)
        ((items.foldl (fun acc i => acc ++ i.categories) []).dedup)

/-- Embedding of `RssClient.get_item_by_id`: load, then return the first item
with the given id, if any. -/
def get_item_by_id (c : RssClient) (now : Int) (net : Nat → Except String RawXml)
    (item_id : String) : Except RssError (Option PressItem) × RssClient × Bool :=
  let r := load_items_cached c now net
  (r.1.map (fun items => items.find? (fun i => i.id == item_id)), r.2.1, r.2.2)

/-! ### Concrete fixtures used by witnesses and counterexamples -/

/-- A cached press item used by cache-behaviour witnesses. -/
def demoItem : PressItem :=
  ⟨"item-1", "Baustellen News", "https://www.stadt-koeln.de/presse/1", none, 100,
    ["Verkehr", "Baustellen"], some "item-1", "rss:stadt-koeln"⟩

/-- A second cached press item. -/
def demoItem2 : PressItem :=
  ⟨"item-2", "Kultur Fest", "https://www.stadt-koeln.de/presse/2",
    some "viele Baustellen hier", 90, ["Kultur"], some "item-2", "rss:stadt-koeln"⟩

/-- Client with a stale snapshot (fetched at time 0, TTL 300). -/
def cStale : RssClient := ⟨300, 8, 3, some [demoItem], some 0⟩

/-- Client that has never loaded a snapshot. -/
def cEmpty : RssClient := ⟨300, 8, 3, none, none⟩

/-- Client with a snapshot fetched at time 1000 (fresh at times below 1300). -/
def cFresh : RssClient := ⟨300, 8, 3, some [demoItem, demoItem2], some 1000⟩

/-- A network on which every attempt raises a transport error. -/
def netFail : Nat → Except String RawXml := fun _ => .error "connection refused"

/-- Item element whose title is plain but whose link text contains a pipe. -/
def cexElemA : Element := .mk "item" none [.mk "title" (some "a") [],
  .mk "link" (some "b|https://www.stadt-koeln.de/x") [], .mk "pubDate" (some "5") []]

/-- Item element whose title contains a pipe, chosen so that its
`title|link` string coincides with that of `cexElemA`. -/
def cexElemB : Element := .mk "item" none [.mk "title" (some "a|https://www.stadt-koeln.de/b") [],
  .mk "link" (some "https://www.stadt-koeln.de/x") [], .mk "pubDate" (some "5") []]

/-- First of two feed entries sharing the GUID `dup-id`. -/
def dupElem1 : Element := .mk "item" none [.mk "title" (some "t1") [],
  .mk "guid" (some "dup-id") [], .mk "pubDate" (some "1") []]

/-- Second feed entry with the same GUID but a different title. -/
def dupElem2 : Element := .mk "item" none [.mk "title" (some "t2") [],
  .mk "guid" (some "dup-id") [], .mk "pubDate" (some "2") []]

/-- Channel containing the two duplicate-GUID entries. -/
def dupChannel : Element := .mk "channel" none [dupElem1, dupElem2]

/-- Root document for the duplicate-GUID feed. -/
def dupRoot : Element := .mk "rss" none [dupChannel]

/-- The duplicate-GUID feed as parser input. -/
def dupDoc : RawXml := .wellFormed dupRoot

/-- The parsed form of `dupElem1`. -/
def dupItem1 : PressItem :=
  ⟨"dup-id", "t1", "https://www.stadt-koeln.de/", none, 1, [], some "dup-id", "rss:stadt-koeln"⟩

/-- The parsed form of `dupElem2`. -/
def dupItem2 : PressItem :=
  ⟨"dup-id", "t2", "https://www.stadt-koeln.de/", none, 2, [], some "dup-id", "rss:stadt-koeln"⟩

/-- Feed entry with no `pubDate` element at all. -/
def noDateElem : Element := .mk "item" none [.mk "title" (some "t") [], .mk "guid" (some "g1") []]

/-- Document whose single entry has no `pubDate`. -/
def noDateDoc : RawXml := .wellFormed (.mk "rss" none [.mk "channel" none [noDateElem]])

/-- Feed entry whose resolved link fails URL validation, so its parse fails. -/
def badItemElem : Element := .mk "item" none [.mk "title" (some "bad") [],
  .mk "link" (some "httpWRONG") [], .mk "guid" (some "bad-1") []]

/-- Every field of an item except the publication timestamp. -/
def itemView (i : PressItem) :
    String × String × String × Option String × List String × Option String :=
  (i.id, i.title, i.link, i.description, i.categories, i.raw_guid)

/-- `itemView` lifted to parse outcomes of a single entry. -/
def viewE : Except String PressItem →
    Except String (String × String × String × Option String × List String × Option String)
  | .ok i => .ok (itemView i)
  | .error e => .error e

/-! ## Theorems -/

set_option maxRecDepth 4000 in
/-- The SHA-1 embedding agrees with `hashlib` on the standard test vector. -/
example : sha1Hex "abc" = "a9993e364706816aba3e25717850c26c9cd0d89d" := by decide

set_option maxRecDepth 4000 in
/-- The SHA-1 embedding agrees with `hashlib` on the empty message. -/
example : sha1Hex "" = "da39a3ee5e6b4b0d3255bfef95601890afd80709" := by decide

/-- `charsStartWith` decides list-prefix containment. -/
theorem charsStartWith_iff (h n : List Char) :
    charsStartWith h n = true ↔ ∃ r, h = n ++ r := by
  induction n generalizing h with
  | nil => simp [charsStartWith]
  | cons c cs ih =>
    cases h with
    | nil => simp [charsStartWith]
    | cons a as =>
      simp only [charsStartWith, Bool.and_eq_true, beq_iff_eq, ih, List.cons_append]
      constructor
      · rintro ⟨rfl, r, rfl⟩
        exact ⟨r, rfl⟩
      · rintro ⟨r, hr⟩
        injection hr with h1 h2
        exact ⟨h1, r, h2⟩

/-- `charsContain` decides contiguous-substring containment. -/
theorem charsContain_iff (h n : List Char) :
    charsContain h n = true ↔ ∃ l r, h = l ++ n ++ r := by
  induction h with
  | nil =>
    simp only [charsContain, List.isEmpty_iff]
    constructor
    · rintro rfl
      exact ⟨[], [], rfl⟩
    · rintro ⟨l, r, hr⟩
      rcases List.append_eq_nil.mp (List.append_eq_nil.mp hr.symm).1 with ⟨-, h2⟩
      exact h2
  | cons a t ih =>
    simp only [charsContain, Bool.or_eq_true, charsStartWith_iff, ih]
    constructor
    · rintro (⟨r, hr⟩ | ⟨l, r, hr⟩)
      · exact ⟨[], r, by simpa using hr⟩
      · exact ⟨a :: l, r, by simp [hr]⟩
    · rintro ⟨l, r, hr⟩
      cases l with
      | nil => exact Or.inl ⟨r, by simpa using hr⟩
      | cons b bs =>
        injection hr with h1 h2
        exact Or.inr ⟨bs, r, h2⟩

/-- `strContains` is Python's substring test: it holds exactly when the
needle occurs contiguously in the haystack. -/
theorem strContains_iff (hay needle : String) :
    strContains hay needle = true ↔ ∃ l r, hay.data = l ++ needle.data ++ r :=
  charsContain_iff hay.data needle.data

/-- Folding the +2-per-match category pass counts matches. -/
theorem foldl_cat_score (p : String → Bool) (l : List String) :
    ∀ s : Nat, l.foldl (fun acc c => if p c then acc + 2 else acc) s
      = s + 2 * l.countP p := by
  induction l with
  | nil => simp
  | cons c cs ih =>
    intro s
    by_cases hp : p c <;> simp [List.countP_cons, hp, ih] <;> omega

/-- `_score_item` computes the spec's formula: 3 for a title match, 2 per
matching category, 1 for a description match (case-insensitive substring). -/
theorem score_item_eq (i : PressItem) (q : String) :
    score_item i q =
      (if strContains (pyLower i.title) q then 3 else 0)
      + 2 * i.categories.countP (fun c => strContains (pyLower c) q)
      + (if strContains (pyLower (i.description.getD "")) q then 1 else 0) := by
  by_cases hd : strContains (pyLower (i.description.getD "")) q <;>
    by_cases ht : strContains (pyLower i.title) q <;>
      simp [score_item, foldl_cat_score, hd, ht, Nat.add_comm]

/-- Unfolding the score-gathering loop one item at a time. -/
theorem scoredOf_cons (a : PressItem) (t : List PressItem) (ql : String) :
    scoredOf (a :: t) ql
      = if 0 < score_item a ql then (score_item a ql, a) :: scoredOf t ql
        else scoredOf t ql := by
  by_cases h : 0 < score_item a ql <;> simp [scoredOf, List.filterMap_cons, h]

/-- Projecting the scored pairs back to items recovers the positively scored
items in snapshot order. -/
theorem map_snd_scoredOf (items : List PressItem) (ql : String) :
    (scoredOf items ql).map Prod.snd
      = items.filter (fun i => decide (0 < score_item i ql)) := by
  induction items with
  | nil => rfl
  | cons a l ih =>
    rw [scoredOf_cons]
    by_cases h : 0 < score_item a ql <;> simp [h, List.filter_cons, ih]

/-- Every scored pair carries the score of its item. -/
theorem mem_scoredOf_fst {items : List PressItem} {ql : String} {x : Nat × PressItem}
    (hx : x ∈ scoredOf items ql) : x.1 = score_item x.2 ql := by
  rcases List.mem_filterMap.mp hx with ⟨i, -, hfi⟩
  by_cases h : 0 < score_item i ql <;> simp [h] at hfi
  subst hfi
  rfl

/-- Inserting a pair into a list leaves the sublist of any fixed score
unchanged except for prepending the new pair when it has that score: the
elements that the insertion point skips all have strictly larger scores. -/
theorem filter_key_orderedInsert (a : Nat × PressItem) (l : List (Nat × PressItem)) (s : Nat) :
    (List.orderedInsert scoreGE a l).filter (fun x => x.1 == s)
      = if a.1 = s then a :: l.filter (fun x => x.1 == s)
        else l.filter (fun x => x.1 == s) := by
  induction l with
  | nil => by_cases ha : a.1 = s <;> simp [List.orderedInsert, ha]
  | cons b t ih =>
    by_cases hab : scoreGE a b
    · by_cases ha : a.1 = s <;> simp [List.orderedInsert, hab, List.filter_cons, ha]
    · have hlt : a.1 < b.1 := Nat.lt_of_not_le hab
      by_cases ha : a.1 = s
      · have hb : ¬ b.1 = s := by omega
        simp [List.orderedInsert, hab, List.filter_cons, ha, hb, ih]
      · by_cases hb : b.1 = s <;>
          simp [List.orderedInsert, hab, List.filter_cons, ha, hb, ih]

/-- Stability of the search sort: for each fixed score, the sorted list keeps
that score's pairs in their original order. -/
theorem filter_key_insertionSort (l : List (Nat × PressItem)) (s : Nat) :
    (List.insertionSort scoreGE l).filter (fun x => x.1 == s)
      = l.filter (fun x => x.1 == s) := by
  induction l with
  | nil => rfl
  | cons a t ih =>
    rw [List.insertionSort, filter_key_orderedInsert, ih, List.filter_cons]
    by_cases ha : a.1 = s <;> simp [ha]

/-- For a positive score `s`, the scored pairs with score `s` are exactly the
snapshot items of score `s`, each paired with `s`. -/
theorem filter_key_scoredOf (items : List PressItem) (ql : String) (s : Nat) (hs : 0 < s) :
    (scoredOf items ql).filter (fun x => x.1 == s)
      = (items.filter (fun i => score_item i ql == s)).map (fun i => (s, i)) := by
  induction items with
  | nil => rfl
  | cons a t ih =>
    rw [scoredOf_cons]
    by_cases hsc : score_item a ql = s
    · have hpos : 0 < score_item a ql := hsc ▸ hs
      rw [if_pos hpos]
      simp [List.filter_cons, hsc, ih]
    · by_cases hpos : 0 < score_item a ql
      · rw [if_pos hpos]
        simp [List.filter_cons, hsc, ih]
      · rw [if_neg hpos]
        have hns : ¬ score_item a ql = s := hsc
        simp [List.filter_cons, hns, ih]

/-- C2: over a loaded snapshot, a blank (lowercased, stripped) query returns
the first `limit` items in snapshot order with no scoring; a non-blank query
returns exactly the items of positive relevance score, sorted by descending
score and truncated to `limit`; and the relevance score of an item is 3 when
the query occurs in the lowercased title, plus 2 for every category containing
it, plus 1 when it occurs in the lowercased description. -/
theorem search_items_ranking (items : List PressItem) (q : String) (limit : Nat) :
    (pyStrip (pyLower q) = "" → searchSnapshot items q limit = items.take limit)
    ∧ (pyStrip (pyLower q) ≠ "" →
        ∃ srt : List PressItem,
          srt.Perm (items.filter
            (fun i => decide (0 < score_item i (pyStrip (pyLower q)))))
          ∧ srt.Sorted (fun a b =>
              score_item b (pyStrip (pyLower q)) ≤ score_item a (pyStrip (pyLower q)))
          ∧ searchSnapshot items q limit = srt.take limit)
    ∧ (∀ i, score_item i (pyStrip (pyLower q))
        = (if strContains (pyLower i.title) (pyStrip (pyLower q)) then 3 else 0)
          + 2 * i.categories.countP
              (fun c => strContains (pyLower c) (pyStrip (pyLower q)))
          + (if strContains (pyLower (i.description.getD "")) (pyStrip (pyLower q))
              then 1 else 0)) := by
  refine ⟨fun h => ?_, fun h => ?_, fun i => score_item_eq i _⟩
  · simp [searchSnapshot, h]
  · refine ⟨(List.insertionSort scoreGE (scoredOf items (pyStrip (pyLower q)))).map
      Prod.snd, ?_, ?_, ?_⟩
    · have hperm :=
        (List.perm_insertionSort scoreGE (scoredOf items (pyStrip (pyLower q)))).map
          Prod.snd
      rwa [map_snd_scoredOf] at hperm
    · have hsrt :=
        List.sorted_insertionSort scoreGE (scoredOf items (pyStrip (pyLower q)))
      refine List.pairwise_map.mpr (List.Pairwise.imp_of_mem (fun ha hb hr => ?_) hsrt)
      have h1 := mem_scoredOf_fst
        ((List.perm_insertionSort scoreGE
          (scoredOf items (pyStrip (pyLower q)))).mem_iff.mp ha)
      have h2 := mem_scoredOf_fst
        ((List.perm_insertionSort scoreGE
          (scoredOf items (pyStrip (pyLower q)))).mem_iff.mp hb)
      rw [← h1, ← h2]
      exact hr
    · simp only [searchSnapshot, h, if_false]
      rw [List.map_take]

/-- Witness for C2 at a concrete snapshot and query. -/
theorem search_items_ranking_witness :
    ∃ srt : List PressItem,
      srt.Perm ([demoItem, demoItem2].filter
        (fun i => decide (0 < score_item i (pyStrip (pyLower "Baustellen")))))
      ∧ srt.Sorted (fun a b =>
          score_item b (pyStrip (pyLower "Baustellen"))
            ≤ score_item a (pyStrip (pyLower "Baustellen")))
      ∧ searchSnapshot [demoItem, demoItem2] "Baustellen" 10 = srt.take 10 :=
  (search_items_ranking [demoItem, demoItem2] "Baustellen" 10).2.1 (by decide)

/-- C10: for a non-blank query and a positive score, the search result's items
of that score form a prefix of the snapshot's items of that score in snapshot
order — the descending-score sort is stable, so the result is a deterministic
function of snapshot, query and limit. -/
theorem search_items_stable (items : List PressItem) (q : String) (limit s : Nat)
    (hq : pyStrip (pyLower q) ≠ "") (hs : 0 < s) :
    ∃ t, (searchSnapshot items q limit).filter
          (fun i => score_item i (pyStrip (pyLower q)) == s) ++ t
        = items.filter (fun i => score_item i (pyStrip (pyLower q)) == s) := by
  have hsearch : searchSnapshot items q limit
      = ((List.insertionSort scoreGE
          (scoredOf items (pyStrip (pyLower q)))).take limit).map Prod.snd := by
    simp only [searchSnapshot, hq, if_false]
  set ql := pyStrip (pyLower q) with hql
  set L := List.insertionSort scoreGE (scoredOf items ql) with hL
  refine ⟨((L.drop limit).filter
    ((fun i => score_item i ql == s) ∘ Prod.snd)).map Prod.snd, ?_⟩
  rw [hsearch, List.filter_map, ← List.map_append, ← List.filter_append,
    List.take_append_drop]
  have hcong : L.filter ((fun i => score_item i ql == s) ∘ Prod.snd)
      = L.filter (fun x => x.1 == s) := by
    refine List.filter_congr (fun x hx => ?_)
    have hfst := mem_scoredOf_fst
      ((List.perm_insertionSort scoreGE (scoredOf items ql)).mem_iff.mp (hL ▸ hx))
    simp [Function.comp, hfst]
  rw [hcong, hL, filter_key_insertionSort, filter_key_scoredOf items ql s hs,
    List.map_map]
  have hid : (Prod.snd ∘ fun i : PressItem => (s, i)) = id := rfl
  rw [hid, List.map_id]

/-- Witness for C10 at a concrete snapshot, query and score. -/
theorem search_items_stable_witness :
    ∃ t, (searchSnapshot [demoItem, demoItem2] "Baustellen" 10).filter
          (fun i => score_item i (pyStrip (pyLower "Baustellen")) == 5) ++ t
        = [demoItem, demoItem2].filter
            (fun i => score_item i (pyStrip (pyLower "Baustellen")) == 5) :=
  search_items_stable [demoItem, demoItem2] "Baustellen" 10 5 (by decide) (by decide)

/-- C1: when the cache is stale or absent and the fetch (after exhausting its
retries) fails, `load_items_cached` serves the prior snapshot unchanged when
one exists, swallowing the failure, and propagates the failure as a
fetch-failed error when no prior snapshot exists. -/
theorem load_items_cached_stale_serve (c : RssClient) (now : Int)
    (net : Nat → Except String RawXml) (e : String)
    (hstale : cacheFresh c now = false)
    (hfail : (fetch_raw c net).result = some (.error e)) :
    (∀ its, c.cached_items = some its →
      load_items_cached c now net = (.ok its, c, true))
    ∧ (c.cached_items = none →
      load_items_cached c now net = (.error (.fetchFailed e), c, true)) := by
  constructor
  · intro its hits
    simp [load_items_cached, hstale, refreshAttempt, hfail, hits, Except.bind]
  · intro hnone
    simp [load_items_cached, hstale, refreshAttempt, hfail, hnone, Except.bind]

/-- Witness for C1: a failing network serves the stale snapshot for `cStale`
and propagates the fetch failure for `cEmpty`. -/
theorem load_items_cached_stale_serve_witness :
    load_items_cached cStale 1000 netFail = (.ok [demoItem], cStale, true)
    ∧ load_items_cached cEmpty 1000 netFail
      = (.error (.fetchFailed "connection refused"), cEmpty, true) :=
  ⟨(load_items_cached_stale_serve cStale 1000 netFail "connection refused"
      (by decide) rfl).1 [demoItem] rfl,
   (load_items_cached_stale_serve cEmpty 1000 netFail "connection refused"
      (by decide) rfl).2 rfl⟩

/-- C8: while the snapshot's age is below the TTL, two consecutive
`load_items_cached` calls both return that same snapshot, leave the client
state unchanged, and perform no network fetch — regardless of the network. -/
theorem load_items_cached_fresh_idempotent (c : RssClient) (its : List PressItem)
    (t now₁ now₂ : Int) (net₁ net₂ : Nat → Except String RawXml)
    (hc : c.cached_items = some its) (hl : c.last_fetch = some t)
    (h₁ : now₁ - t < c.cache_ttl) (h₂ : now₂ - t < c.cache_ttl) :
    load_items_cached c now₁ net₁ = (.ok its, c, false)
    ∧ load_items_cached (load_items_cached c now₁ net₁).2.1 now₂ net₂
      = (.ok its, c, false) := by
  have hfresh₁ : cacheFresh c now₁ = true := by simp [cacheFresh, hc, hl, h₁]
  have hfresh₂ : cacheFresh c now₂ = true := by simp [cacheFresh, hc, hl, h₂]
  have e₁ : load_items_cached c now₁ net₁ = (.ok its, c, false) := by
    simp [load_items_cached, hfresh₁, hc]
  refine ⟨e₁, ?_⟩
  rw [e₁]
  simp [load_items_cached, hfresh₂, hc]

/-- Witness for C8 at a concrete fresh client and failing network. -/
theorem load_items_cached_fresh_idempotent_witness :
    load_items_cached cFresh 1100 netFail = (.ok [demoItem, demoItem2], cFresh, false)
    ∧ load_items_cached (load_items_cached cFresh 1100 netFail).2.1 1200 netFail
      = (.ok [demoItem, demoItem2], cFresh, false) :=
  load_items_cached_fresh_idempotent cFresh [demoItem, demoItem2] 1000 1100 1200
    netFail netFail rfl rfl (by decide) (by decide)

/-- C6 divergence: with `max_retries=5` configured, the client records the
value, yet `fetch_raw` still performs exactly 3 attempts — the decorator is
applied with the literal `max_attempts=3` — with backoff waits of 1 and 2
seconds, and surfaces the last error. -/
theorem fetch_raw_ignores_max_retries :
    (mkRssClient none none (some 5)).max_retries = 5
    ∧ (fetch_raw (mkRssClient none none (some 5)) netFail).attemptsMade = 3
    ∧ (fetch_raw (mkRssClient none none (some 5)) netFail).result
        = some (.error "connection refused")
    ∧ (fetch_raw (mkRssClient none none (some 5)) netFail).waits = [1, 2] := by
  refine ⟨rfl, rfl, rfl, ?_⟩
  show [1 * 2 ^ 0, 1 * 2 ^ 1] = ([1, 2] : List ℚ)
  norm_num

/-- Membership in the category-accumulating fold. -/
theorem mem_foldl_append (its : List PressItem) (acc : List String) (s : String) :
    s ∈ its.foldl (fun acc i => acc ++ i.categories) acc
      ↔ s ∈ acc ∨ ∃ i ∈ its, s ∈ i.categories := by
  induction its generalizing acc with
  | nil => simp
  | cons a t ih => simp [List.foldl_cons, ih, List.mem_append, or_assoc]

/-- C9: the categories listing is empty when no snapshot has ever been
loaded; over a loaded snapshot it is strictly sorted (hence deduplicated) and
contains exactly the categories occurring in some item. -/
theorem get_categories_sorted_union (c : RssClient) :
    (c.cached_items = none → get_categories c = [])
    ∧ (∀ its, c.cached_items = some its →
        (get_categories c).Sorted (· < ·)
        ∧ ∀ s, s ∈ get_categories c ↔ ∃ i ∈ its, s ∈ i.categories) := by
  constructor
  · intro h
    simp [get_categories, h]
  · intro its hits
    have hgc : get_categories c
        = List.insertionSort (· ≤ ·)
            ((its.foldl (fun acc i => acc ++ i.categories) []).dedup) := by
      simp [get_categories, hits]
    constructor
    · rw [hgc]
      have hsorted := List.sorted_insertionSort (α := String) (· ≤ ·)
        ((its.foldl (fun acc i => acc ++ i.categories) []).dedup)
      have hnodup : (List.insertionSort (α := String) (· ≤ ·)
          ((its.foldl (fun acc i => acc ++ i.categories) []).dedup)).Nodup :=
        (List.perm_insertionSort (α := String) (· ≤ ·) _).nodup_iff.mpr
          (List.nodup_dedup _)
      exact hsorted.lt_of_le hnodup
    · intro s
      rw [hgc, (List.perm_insertionSort (α := String) (· ≤ ·) _).mem_iff,
        List.mem_dedup, mem_foldl_append]
      simp

/-- Witness for C9: the never-loaded client lists nothing; a loaded client's
listing is strictly sorted and contains a category exactly when an item
carries it. -/
theorem get_categories_sorted_union_witness :
    get_categories cEmpty = []
    ∧ (get_categories cFresh).Sorted (· < ·)
    ∧ ("Kultur" ∈ get_categories cFresh
        ↔ ∃ i ∈ [demoItem, demoItem2], "Kultur" ∈ i.categories) :=
  ⟨(get_categories_sorted_union cEmpty).1 rfl,
   ((get_categories_sorted_union cFresh).2 [demoItem, demoItem2] rfl).1,
   ((get_categories_sorted_union cFresh).2 [demoItem, demoItem2] rfl).2 "Kultur"⟩


/-- One item survives `filterMap` per successfully parsed entry. -/
theorem length_filterMap_eq_countP (l : List Element) (f : Element → Option PressItem) :
    (l.filterMap f).length = l.countP (fun el => (f el).isSome) := by
  induction l with
  | nil => rfl
  | cons a t ih =>
      cases hfa : f a <;> simp [List.filterMap_cons, hfa, List.countP_cons, ih]

/-- C4: the parser raises the malformed-feed error exactly on non-well-formed
input; the missing-channel error exactly when the well-formed document has no
channel child; skips an entry whose individual parse fails without aborting
the parse; and raises the empty-feed error exactly when no entry survives,
including when the channel had item entries that all failed. -/
theorem parse_items_errors (now : Int) :
    (∀ x, (∃ m, parse_items x now = .error (.invalidXml m)) ↔ ∃ m, x = .malformed m)
    ∧ (∀ root, parse_items (.wellFormed root) now = .error .missingChannel
        ↔ root.find "channel" = none)
    ∧ (∀ pre post bad, (from_rss_item bad now).toOption = none →
        parse_items (.wellFormed (.mk "rss" none
          [.mk "channel" none (pre ++ bad :: post)])) now
        = parse_items (.wellFormed (.mk "rss" none
          [.mk "channel" none (pre ++ post)])) now)
    ∧ (∀ root channel, root.find "channel" = some channel →
        (parse_items (.wellFormed root) now = .error .emptyFeed
          ↔ ∀ el ∈ channel.findall "item", (from_rss_item el now).toOption = none)) := by
  refine ⟨fun x => ⟨?_, ?_⟩, fun root => ⟨?_, ?_⟩, ?_, ?_⟩
  · rintro ⟨m, hm⟩
    cases x with
    | malformed msg => exact ⟨msg, rfl⟩
    | wellFormed root =>
        exfalso
        simp only [parse_items] at hm
        split at hm
        · simp at hm
        · split at hm <;> simp at hm
  · rintro ⟨m, rfl⟩
    exact ⟨m, rfl⟩
  · intro hm
    simp only [parse_items] at hm
    split at hm
    · rename_i hfind
      exact hfind
    · exfalso
      split at hm <;> simp at hm
  · intro hnone
    simp [parse_items, hnone]
  · intro pre post bad hbad
    have hfind₁ : (Element.mk "rss" none
        [Element.mk "channel" none (pre ++ bad :: post)]).find "channel"
        = some (Element.mk "channel" none (pre ++ bad :: post)) := rfl
    have hfind₂ : (Element.mk "rss" none
        [Element.mk "channel" none (pre ++ post)]).find "channel"
        = some (Element.mk "channel" none (pre ++ post)) := rfl
    simp only [parse_items, hfind₁, hfind₂, Element.findall, Element.children,
      List.filter_append, List.filter_cons]
    by_cases hb : bad.tag == "item"
    · simp [hb, List.filterMap_append, List.filterMap_cons, hbad]
    · simp [hb, List.filterMap_append]
  · intro root channel hch
    simp only [parse_items, hch]
    constructor
    · intro hm
      split at hm
      · rename_i hemp
        exact List.filterMap_eq_nil_iff.mp (List.isEmpty_iff.mp hemp)
      · simp at hm
    · intro hall
      have hnil : (channel.findall "item").filterMap
          (fun el => (from_rss_item el now).toOption) = [] :=
        List.filterMap_eq_nil_iff.mpr hall
      simp [hnil]

/-- Witness for C4: malformed input, a channel-less document, a skipped
failing entry, and an all-entries-failed feed, at concrete inputs. -/
theorem parse_items_errors_witness :
    (∃ m, parse_items (.malformed "bad utf8") 0 = .error (.invalidXml m))
    ∧ (parse_items (.wellFormed (.mk "rss" none [])) 0 = .error .missingChannel)
    ∧ parse_items (.wellFormed (.mk "rss" none
        [.mk "channel" none ([] ++ badItemElem :: [dupElem1])])) 0
      = parse_items (.wellFormed (.mk "rss" none
        [.mk "channel" none ([] ++ [dupElem1])])) 0
    ∧ (parse_items (.wellFormed (.mk "rss" none
          [.mk "channel" none [badItemElem]])) 0 = .error .emptyFeed
        ↔ ∀ el ∈ (Element.mk "channel" none [badItemElem]).findall "item",
            (from_rss_item el 0).toOption = none) :=
  ⟨((parse_items_errors 0).1 (.malformed "bad utf8")).mpr ⟨"bad utf8", rfl⟩,
   ((parse_items_errors 0).2.1 (.mk "rss" none [])).mpr rfl,
   (parse_items_errors 0).2.2.1 [] [dupElem1] badItemElem (by decide),
   (parse_items_errors 0).2.2.2 (.mk "rss" none [.mk "channel" none [badItemElem]])
     (.mk "channel" none [badItemElem]) rfl⟩

/-- C5 counterexample: the duplicate-GUID feed parses to a snapshot holding
two distinct items with the same id `dup-id` — ids are not unique within a
snapshot and duplicates do not collapse. -/
theorem parse_items_duplicate_ids :
    parse_items dupDoc 0 = .ok [dupItem1, dupItem2]
    ∧ dupItem1.id = dupItem2.id
    ∧ dupItem1 ≠ dupItem2 :=
  ⟨by decide, rfl, by decide⟩

/-- C5 amended: the parse keeps one item per successfully parsed entry, in
feed order, with no deduplication of ids. -/
theorem parse_items_no_dedup (root channel : Element) (now : Int)
    (l : List PressItem)
    (hch : root.find "channel" = some channel)
    (hl : parse_items (.wellFormed root) now = .ok l) :
    l = (channel.findall "item").filterMap (fun el => (from_rss_item el now).toOption)
    ∧ l.length = (channel.findall "item").countP
        (fun el => (from_rss_item el now).toOption.isSome) := by
  simp only [parse_items, hch] at hl
  split at hl
  · simp at hl
  · simp only [Except.ok.injEq] at hl
    subst hl
    exact ⟨rfl, (length_filterMap_eq_countP _ _).symm ▸ rfl⟩

/-- Witness for C5's amended claim on the duplicate-GUID feed. -/
theorem parse_items_no_dedup_witness :
    [dupItem1, dupItem2] = (dupChannel.findall "item").filterMap
        (fun el => (from_rss_item el 0).toOption)
    ∧ ([dupItem1, dupItem2] : List PressItem).length
        = (dupChannel.findall "item").countP
            (fun el => (from_rss_item el 0).toOption.isSome) :=
  parse_items_no_dedup dupRoot dupChannel 0 [dupItem1, dupItem2] rfl (by decide)

/-- The timestamp-free view of a single-entry parse does not depend on the
wall-clock time. -/
theorem viewE_from_rss_item (el : Element) (t₁ t₂ : Int) :
    viewE (from_rss_item el t₁) = viewE (from_rss_item el t₂) := by
  by_cases h : isValidUrl (linkOf el) <;> simp [from_rss_item, viewE, h, itemView]

/-- A parsable pubDate makes the published timestamp independent of the
wall-clock time. -/
theorem publishedAtOf_parsable (el : Element) (t₁ t₂ : Int)
    (h : pubDateParsable el = true) : publishedAtOf el t₁ = publishedAtOf el t₂ := by
  rcases hfind : el.find "pubDate" with _ | p
  · simp [pubDateParsable, hfind] at h
  · rcases htext : p.text with _ | s
    · simp [pubDateParsable, hfind, htext] at h
    · simp only [pubDateParsable, hfind, htext, Bool.and_eq_true, bne_iff_ne,
        Bool.not_eq_true', beq_eq_false_iff_ne, ne_eq, Option.isSome_iff_exists] at h
      rcases h with ⟨hs, d0, hd⟩
      rcases hpd : parseDate (pyStrip s) with _ | d
      · rw [hpd] at hd
        cases hd
      · simp [publishedAtOf, hfind, htext, hpd, hs]

/-- A parsable pubDate makes the whole single-entry parse independent of the
wall-clock time. -/
theorem from_rss_item_parsable (el : Element) (t₁ t₂ : Int)
    (h : pubDateParsable el = true) : from_rss_item el t₁ = from_rss_item el t₂ := by
  simp [from_rss_item, publishedAtOf_parsable el t₁ t₂ h]

/-- The option view of a failed single-entry parse. -/
theorem toOption_error (e : String) :
    (Except.error e : Except String PressItem).toOption = none := rfl

/-- The option view of a successful single-entry parse. -/
theorem toOption_ok (i : PressItem) :
    (Except.ok i : Except String PressItem).toOption = some i := rfl

/-- The timestamp-free views of the surviving items do not depend on the
wall-clock time. -/
theorem filterMap_view_eq (l : List Element) (t₁ t₂ : Int) :
    ((l.filterMap (fun el => (from_rss_item el t₁).toOption)).map itemView)
      = ((l.filterMap (fun el => (from_rss_item el t₂).toOption)).map itemView) := by
  induction l with
  | nil => rfl
  | cons a t ih =>
      have hv := viewE_from_rss_item a t₁ t₂
      rcases h1 : from_rss_item a t₁ with e1 | i1 <;>
        rcases h2 : from_rss_item a t₂ with e2 | i2
      · simp only [List.filterMap_cons, h1, h2, toOption_error]
        exact ih
      · rw [h1, h2] at hv
        simp [viewE] at hv
      · rw [h1, h2] at hv
        simp [viewE] at hv
      · rw [h1, h2] at hv
        simp only [viewE, Except.ok.injEq] at hv
        simp only [List.filterMap_cons, h1, h2, toOption_ok, List.map_cons]
        rw [hv, ih]

/-- Lists of equal length are empty together. -/
theorem isEmpty_eq_of_length (A B : List PressItem) (h : A.length = B.length) :
    A.isEmpty = B.isEmpty := by
  cases A <;> cases B <;> first | rfl | simp at h

/-- With every entry's pubDate parsable, the surviving items do not depend on
the wall-clock time at all. -/
theorem filterMap_parsable_eq (l : List Element) (t₁ t₂ : Int)
    (hall : ∀ el ∈ l, pubDateParsable el = true) :
    l.filterMap (fun el => (from_rss_item el t₁).toOption)
      = l.filterMap (fun el => (from_rss_item el t₂).toOption) := by
  induction l with
  | nil => rfl
  | cons a t ih =>
      have ha := from_rss_item_parsable a t₁ t₂ (hall a (by simp))
      rw [List.filterMap_cons, List.filterMap_cons, ha,
        ih (fun el hel => hall el (by simp [hel]))]

/-- C7 amended: parsing the same accepted document at two times yields items
agreeing on ids, titles, links, descriptions, categories and GUIDs, in the
same order; and when every item entry carries a parsable pubDate the full
results — timestamps included — coincide. -/
theorem parse_items_deterministic (x : RawXml) (t₁ t₂ : Int) :
    (parse_items x t₁).map (fun l => l.map itemView)
      = (parse_items x t₂).map (fun l => l.map itemView)
    ∧ (∀ root channel, x = .wellFormed root → root.find "channel" = some channel →
        (∀ el ∈ channel.findall "item", pubDateParsable el = true) →
        parse_items x t₁ = parse_items x t₂) := by
  constructor
  · cases x with
    | malformed m => rfl
    | wellFormed root =>
        rcases hfind : root.find "channel" with _ | ch
        · simp [parse_items, hfind]
        · have hview := filterMap_view_eq (ch.findall "item") t₁ t₂
          have hlen : ((ch.findall "item").filterMap
              (fun el => (from_rss_item el t₁).toOption)).length
              = ((ch.findall "item").filterMap
                  (fun el => (from_rss_item el t₂).toOption)).length := by
            rw [← List.length_map _ itemView, hview, List.length_map]
          have hemp := isEmpty_eq_of_length _ _ hlen
          cases hE₁ : ((ch.findall "item").filterMap
              (fun el => (from_rss_item el t₁).toOption)).isEmpty
          · have hE₂ : ((ch.findall "item").filterMap
                (fun el => (from_rss_item el t₂).toOption)).isEmpty = false := by
              rw [← hemp, hE₁]
            simp [parse_items, hfind, hE₁, hE₂, hview, Except.map]
          · have hE₂ : ((ch.findall "item").filterMap
                (fun el => (from_rss_item el t₂).toOption)).isEmpty = true := by
              rw [← hemp, hE₁]
            simp [parse_items, hfind, hE₁, hE₂]
  · rintro root channel rfl hch hall
    have hfm := filterMap_parsable_eq (channel.findall "item") t₁ t₂ hall
    simp [parse_items, hch, hfm]

/-- Witness for C7's amended claim on the duplicate-GUID feed, whose entries
all carry parsable pubDates. -/
theorem parse_items_deterministic_witness :
    (parse_items dupDoc 3).map (fun l => l.map itemView)
      = (parse_items dupDoc 4).map (fun l => l.map itemView)
    ∧ parse_items dupDoc 3 = parse_items dupDoc 4 :=
  ⟨(parse_items_deterministic dupDoc 3 4).1,
   (parse_items_deterministic dupDoc 3 4).2 dupRoot dupChannel rfl rfl (by decide)⟩

set_option maxRecDepth 8000 in
/-- C7 counterexample: the entry without a pubDate is stamped with the
wall-clock time of the parse, so parsing the same bytes at two different
times yields different item sequences (the publication timestamps differ). -/
theorem parse_items_time_dependent :
    parse_items noDateDoc 0 ≠ parse_items noDateDoc 1 := by
  decide

/-- C3 amended: a GUID with non-blank stripped form is the id verbatim; with
no usable GUID the id is the SHA-1 hex digest of the stripped title, a pipe,
and the stripped resolved link, so equal stripped titles and links give equal
ids; and every parsed item derives its id from its own title, link and GUID
fields by this rule. -/
theorem stable_id_derivation (t₁ l₁ t₂ l₂ : String) (g : Option String) :
    (∀ s, g = some s → pyStrip s ≠ "" → generate_stable_id t₁ l₁ g = pyStrip s)
    ∧ ((g = none ∨ (∃ s, g = some s ∧ pyStrip s = "")) →
        generate_stable_id t₁ l₁ g = sha1Hex (pyStrip t₁ ++ "|" ++ pyStrip l₁))
    ∧ (pyStrip t₁ = pyStrip t₂ → pyStrip l₁ = pyStrip l₂ →
        generate_stable_id t₁ l₁ none = generate_stable_id t₂ l₂ none)
    ∧ (∀ el now it, from_rss_item el now = .ok it →
        it.id = generate_stable_id it.title it.link it.raw_guid) := by
  refine ⟨?_, ?_, ?_, ?_⟩
  · rintro s rfl hs
    have hs0 : s ≠ "" := fun h => hs (by subst h; rfl)
    simp [generate_stable_id, hs0, hs]
  · rintro (rfl | ⟨s, rfl, hs⟩)
    · rfl
    · by_cases h0 : s = "" <;> simp [generate_stable_id, h0, hs]
  · intro h1 h2
    simp [generate_stable_id, h1, h2]
  · intro el now it h
    simp only [from_rss_item] at h
    split at h
    · simp only [Except.ok.injEq] at h
      subst h
      rfl
    · simp at h

/-- Witness for C3's amended claim: the GUID branch, the blank-GUID fallback,
the forward equality direction, and a parsed item's id derivation. -/
theorem stable_id_derivation_witness :
    generate_stable_id "T" "L" (some " g ") = pyStrip " g "
    ∧ generate_stable_id "T" "L" (some " ") = sha1Hex (pyStrip "T" ++ "|" ++ pyStrip "L")
    ∧ generate_stable_id " a " " b " none = generate_stable_id "a" "b" none
    ∧ dupItem1.id = generate_stable_id dupItem1.title dupItem1.link dupItem1.raw_guid :=
  ⟨(stable_id_derivation "T" "L" "T" "L" (some " g ")).1 " g " rfl (by decide),
   (stable_id_derivation "T" "L" "T" "L" (some " ")).2.1 (Or.inr ⟨" ", rfl, by decide⟩),
   (stable_id_derivation " a " " b " "a" "b" none).2.2.1 (by decide) (by decide),
   (stable_id_derivation "" "" "" "" none).2.2.2 dupElem1 1 dupItem1 (by decide)⟩

set_option maxRecDepth 8000 in
/-- C3 counterexample: two GUID-less entries whose `title|link` strings
coincide because one text contains a pipe parse to items with equal ids but
different stripped titles — id equality does not imply equal title and link
texts. -/
theorem stable_id_pipe_collision :
    (from_rss_item cexElemA 0).toOption.map PressItem.id
      = (from_rss_item cexElemB 0).toOption.map PressItem.id
    ∧ (from_rss_item cexElemA 0).toOption.map PressItem.raw_guid = some none
    ∧ (from_rss_item cexElemB 0).toOption.map PressItem.raw_guid = some none
    ∧ (from_rss_item cexElemA 0).toOption.map (fun i => pyStrip i.title)
      ≠ (from_rss_item cexElemB 0).toOption.map (fun i => pyStrip i.title) := by
  exact ⟨by decide, by decide, by decide, by decide⟩

end KoelnPresse
